import Mathlib

/-!
Verification of the moto protocol engine (request decoders, response
encoders, operation router) against its natural-language specification.

Each section shallowly embeds the relevant Python code of the repository
(`moto/core/parse.py`, `moto/motocore/serialize.py`, `moto/core/routing.py`)
into Lean: Python dicts become association lists or lookup results, the
sentinel `UNDEFINED` becomes `Option.none`, Python exceptions become
`Except.error`, and the unbounded `while True` list probe of the query
decoder becomes a fuel-indexed recursion (the fuel only models the number
of loop iterations; every theorem supplies enough fuel).
-/

set_option autoImplicit false

namespace Moto

/-! ## Python string primitives

The decoders and the router use a handful of Python `str` operations.  We
embed them on the character list of the string (all the strings involved
are ASCII), so that every proof can evaluate them inside the kernel. -/

/-- Embeds Python `s.lower()` (for the ASCII strings of this code). -/
def pyLower (s : String) : String :=
  String.mk (s.data.map Char.toLower)

/-- Embeds Python `s.startswith(pre)`. -/
def pyStartsWith (s pre : String) : Bool :=
  pre.data.isPrefixOf s.data

/-- Embeds Python `s.endswith(suf)`. -/
def pyEndsWith (s suf : String) : Bool :=
  suf.data.isSuffixOf s.data

/-- Embeds Python `c in s` for a one-character needle. -/
def pyContainsChar (s : String) (c : Char) : Bool :=
  s.data.contains c

/-- Embeds Python `s.replace(c, "")` for a one-character needle. -/
def removeChar (s : String) (c : Char) : String :=
  String.mk (s.data.filter (fun ch => ch != c))

/-- Embeds Python `s.replace(old, new)` for one-character needle and
replacement. -/
def replaceChar (s : String) (old new : Char) : String :=
  String.mk (s.data.map (fun ch => if ch == old then new else ch))

/-- Embeds Python `s.split(sep)` for a one-character separator. -/
def splitOnChar (s : String) (sep : Char) : List String :=
  (s.data.foldr
    (fun c acc =>
      match acc with
      | cur :: rest => if c == sep then [] :: cur :: rest else (c :: cur) :: rest
      | [] => [[c]])
    [[]]).map String.mk

/-! ## Query-protocol request decoder (`moto/core/parse.py`, class `QueryParser`)

The query multimap `request_dict["values"]` is an insertion-ordered mapping
from dotted keys to strings; we embed it as an association list and embed
`dict.get` as lookup of the first matching key.  `UNDEFINED` (the sentinel
for an absent field) is `Option.none`.
-/

/-- Embeds Python `params.get(k)` on the query multimap: the value at the
first matching key, or `none` when the key is missing. -/
def qget (params : List (String × String)) (k : String) : Option String :=
  match params.find? (fun p => p.fst == k) with
  | some p => some p.snd
  | none => none

/-- Shape graph fragment walked by `QueryParser`.  Each shape carries the
serialization traits the decoder reads: `serName` is
`shape.serialization.get("name")`, `flattened` is
`shape.serialization.get("flattened")`, and a string shape carries
`metaDefault`, the `shape.metadata.get("default")` consulted by
`QueryParser._default_handle`.  Scalar shapes other than strings are
embedded separately where a claim needs them. -/
inductive QShape where
  | qstring (serName : Option String) (metaDefault : Option String)
  | qlist (serName : Option String) (flattened : Bool) (member : QShape)
  | qstructure (serName : Option String) (members : List (String × QShape))

/-- The serialization name of a shape (`shape.serialization.get("name")`). -/
def QShape.serName : QShape → Option String
  | .qstring sn _ => sn
  | .qlist sn _ _ => sn
  | .qstructure sn _ => sn

/-- Decoded parameter-tree values produced by the query decoder. -/
inductive QVal where
  | vstr (s : String)
  | vlist (xs : List QVal)
  | vmap (entries : List (String × QVal))

/-- Embeds `QueryParser._default_handle`:
`value.get(prefix, shape.metadata.get("default", UNDEFINED))`. -/
def defaultHandle (params : List (String × String)) (metaDefault : Option String)
    (pfx : String) : Option String :=
  match qget params pfx with
  | some v => some v
  | none => metaDefault

/-- Embeds `QueryParser._gonna_recurse`: an empty prefix never recurses;
otherwise recurse (returning `UNDEFINED`) exactly when no key of the
multimap starts with the prefix. -/
def gonnaRecurse (params : List (String × String)) (pfx : String) : Bool :=
  if pfx == "" then false
  else !(params.any (fun p => pyStartsWith p.fst pfx))

/-- Embeds `'.'.join(prefix.split('.')[:-1] + [name])` from
`QueryParser._handle_list` (replacing the last dotted component of the
prefix with the member serialization name). -/
def replaceLastComponent (pfx name : String) : String :=
  String.intercalate "." ((splitOnChar pfx '.').dropLast ++ [name])

mutual

/-- Embeds `QueryParser._parse_shape` (dynamic dispatch on the shape type
to `_handle_structure`, `_handle_list`, `_default_handle`).  `fuel`
bounds the iterations of the `while True` index probe in `_handle_list`;
the Python loop runs unboundedly, so a result obtained with fuel left over
is exactly the Python result. -/
def parseShape (params : List (String × String)) :
    Nat → QShape → String → Option QVal
  | _, .qstring _ md, pfx =>
    (defaultHandle params md pfx).map QVal.vstr
  | fuel, .qlist _ flattened member, pfx =>
    -- QueryParser._handle_list
    -- "The query protocol serializes empty lists as an empty string."
    if qget params pfx == some "" then some (QVal.vlist [])
    else
      let listPfx :=
        if flattened then
          match member.serName with
          | some name => replaceLastComponent pfx name
          | none => pfx
        else
          pfx ++ "." ++ (member.serName.getD "member")
      let parsedList := probeList params fuel member listPfx 1
      if parsedList.isEmpty then none else some (QVal.vlist parsedList)
  | fuel, .qstructure _ members, pfx =>
    -- QueryParser._handle_structure
    if gonnaRecurse params pfx then none
    else
      let parsed := parseMembers params fuel members pfx
      if parsed.isEmpty then none else some (QVal.vmap parsed)

/-- Embeds the `while True` probe of `QueryParser._handle_list`: parse
`f"{list_prefix}.{i}"` for i = 1, 2, ... until a probe returns
`UNDEFINED`. -/
def probeList (params : List (String × String)) :
    Nat → QShape → String → Nat → List QVal
  | 0, _, _, _ => []
  | fuel + 1, member, listPfx, i =>
    match parseShape params fuel member (listPfx ++ "." ++ Nat.repr i) with
    | none => []
    | some v => v :: probeList params fuel member listPfx (i + 1)

/-- Embeds the member loop of `QueryParser._handle_structure`: compute each
member's dotted prefix (serialization name, default the member name, joined
to the enclosing prefix), parse it, and keep it only when it is not
`UNDEFINED`. -/
def parseMembers (params : List (String × String)) :
    Nat → List (String × QShape) → String → List (String × QVal)
  | _, [], _ => []
  | fuel, (name, shape) :: rest, pfx =>
    let memberPfx := shape.serName.getD name
    let memberPfx := if pfx == "" then memberPfx else pfx ++ "." ++ memberPfx
    match parseShape params fuel shape memberPfx with
    | some v => (name, v) :: parseMembers params fuel rest pfx
    | none => parseMembers params fuel rest pfx

end

/-- Embeds `QueryParser._do_parse`: parse the input shape at the empty
prefix and replace an `UNDEFINED` result with the empty dict. -/
def doParse (params : List (String × String)) (fuel : Nat) (shape : QShape) : QVal :=
  (parseShape params fuel shape "").getD (QVal.vmap [])

/-! ## Boolean scalar handlers of the decoders (`moto/core/parse.py`)

Python is dynamically typed, so the boolean handlers first test for a
native `bool`, then call `.lower()` (which raises `AttributeError` on a
non-string, caught and turned into `UNDEFINED`).  We embed the dynamic
value as a small sum type. -/

/-- A dynamic Python value reaching a query-protocol scalar handler:
either a native boolean, a string, or the `UNDEFINED` sentinel produced by
`_default_handle` for a missing key. -/
inductive PyScalar where
  | pbool (b : Bool)
  | pstr (s : String)
  | pundef

/-- Embeds `QueryParser._handle_boolean`: a native boolean passes through;
a string is lowercased and compared with `"true"`; anything without
`.lower()` (the `UNDEFINED` sentinel) raises `AttributeError`, which the
handler catches and turns into `UNDEFINED` (`none`). -/
def queryHandleBoolean : PyScalar → Option Bool
  | .pbool b => some b
  | .pstr s => some (pyLower s == "true")
  | .pundef => none

/-- Embeds `BaseXMLParser._handle_boolean` (after the `_text_content`
wrapper has extracted the node text, an empty node becoming `""`):
`True` exactly when the text equals `"true"`, `False` otherwise. -/
def xmlHandleBoolean (text : String) : Bool :=
  text == "true"

/-- A JSON value as decoded by Python `json.loads` (numbers restricted to
integers; fractional literals never appear in the claims about this
code). -/
inductive JValue where
  | jnull
  | jbool (b : Bool)
  | jnum (n : Int)
  | jstr (s : String)
  | jarr (xs : List JValue)
  | jobj (fields : List (String × JValue))

/-- Embeds `RestJSONParser._handle_boolean`, whose input may come from a
query string (a raw string) or from a decoded JSON body (any JSON value):
native booleans pass through; strings are lowercased and compared with
`"true"`; any other value has no `.lower()` attribute, so the handler
catches `AttributeError` and returns `UNDEFINED` (`none`). -/
def restJsonHandleBoolean : JValue → Option Bool
  | .jbool b => some b
  | .jstr s => some (pyLower s == "true")
  | _ => none

/-! ## JSON body parsing (`moto/core/parse.py`, class `BaseJSONParser`)

`json.loads` is the Python standard library; we pass it in as a function
`jsonLoads` returning `Except Unit JValue` (`Except.error` embeds the
`ValueError` raised on malformed input). -/

/-- Embeds `BaseJSONParser._parse_body_as_json`: an empty body decodes to
the empty dict; a body that `json.loads` rejects is substituted by
`{"message": <raw body text>}` instead of raising. -/
def parseBodyAsJson (jsonLoads : String → Except Unit JValue) (body : String) : JValue :=
  if body == "" then JValue.jobj []
  else
    match jsonLoads body with
    | .ok parsed => parsed
    | .error _ => JValue.jobj [("message", JValue.jstr body)]

/-- Embeds `value.get(json_name)` on a decoded JSON object, as used by
`BaseJSONParser._handle_structure`.  `json.loads` maps JSON `null` to
Python `None`, so a key that is present with value `null` and a missing
key both make `value.get` return `None`; the embedding reflects that
conflation. -/
def pyJsonGet (fields : List (String × JValue)) (k : String) : Option JValue :=
  match fields.find? (fun p => p.fst == k) with
  | none => none
  | some (_, .jnull) => none
  | some (_, v) => some v

/-- Looks up a raw JSON object key (no `null` conflation); used only to
state theorems about which wire keys are present. -/
def jfind (fields : List (String × JValue)) (k : String) : Option JValue :=
  match fields.find? (fun p => p.fst == k) with
  | some p => some p.snd
  | none => none

/-- A structure shape as walked by `BaseJSONParser._handle_structure`:
`isDocumentType` is `shape.is_document_type`, and each member carries its
optional serialization name (`shape.serialization.get("name")`).  The
modeled member shapes are scalars, for which `_parse_shape` falls through
to `_default_handle` and returns the JSON value unchanged. -/
structure JStructShape where
  isDocumentType : Bool
  members : List (String × Option String)

/-- Result of `BaseJSONParser._handle_structure`: the raw value for a
document type, Python `None` for a structure that came across the wire as
JSON `null`, or the member dict. -/
inductive JParsed where
  | jdoc (v : JValue)
  | jnone
  | jmap (fields : List (String × JValue))

/-- Embeds the member loop of `BaseJSONParser._handle_structure`: for each
member, look up its wire name with `value.get` and keep the member only
when the lookup is not `None`. -/
def collectMembers (fields : List (String × JValue)) :
    List (String × Option String) → List (String × JValue)
  | [] => []
  | (name, serName) :: rest =>
    match pyJsonGet fields (serName.getD name) with
    | some rawValue => (name, rawValue) :: collectMembers fields rest
    | none => collectMembers fields rest

/-- A Python `AttributeError` (embedded for the places where the code
calls a method on a value that does not have it). -/
inductive PyErr where
  | attributeError (name : String)
  | keyError (k : String)
  | typeError

/-- Embeds `BaseJSONParser._handle_structure`: a document type passes the
value through; a structure whose value is `None` (JSON `null`) is returned
unchanged rather than as an empty dict; otherwise each member is looked up
by wire name and kept only when `value.get` is not `None`.  The member
loop calls `value.get`, which raises `AttributeError` on a non-object —
with no members the loop body never runs and an empty dict is returned. -/
def handleJsonStructure (shape : JStructShape) (value : JValue) : Except PyErr JParsed :=
  if shape.isDocumentType then .ok (.jdoc value)
  else
    match value with
    | .jnull => .ok .jnone
    | .jobj fields => .ok (.jmap (collectMembers fields shape.members))
    | _ =>
      if shape.members.isEmpty then .ok (.jmap [])
      else .error (.attributeError "get")

/-! ## XML body parsing (`moto/core/parse.py`, class `BaseXMLParser`)

`xml.etree.ElementTree` is the Python standard library; we pass the
low-level parser in as `etreeParse`, returning `Except String XElem`
(`Except.error msg` embeds the `XMLParseError` with message `msg`). -/

/-- A parsed XML element (the fragment of the ElementTree interface the
decoder reads). -/
inductive XElem where
  | elem (tag : String) (text : Option String) (children : List XElem)

/-- The `ResponseParserError` raised by `BaseXMLParser`. -/
structure ResponseParserError where
  msg : String
deriving DecidableEq

/-- Embeds `BaseXMLParser._parse_xml_string_to_dom`: feed the string to the
ElementTree parser; on `XMLParseError` it raises `ResponseParserError`
(it does not substitute a best-effort value). -/
def parseXmlStringToDom (etreeParse : String → Except String XElem)
    (xmlString : String) : Except ResponseParserError XElem :=
  match etreeParse xmlString with
  | .ok root => .ok root
  | .error e =>
    .error ⟨"Unable to parse response (" ++ e ++
      "), invalid XML received. Further retries may succeed:\n" ++ xmlString⟩

/-- Embeds `RestXMLParser._initial_body_parse`: an empty body becomes an
empty element; otherwise the body is parsed by
`_parse_xml_string_to_dom`, whose `ResponseParserError` propagates (no
caller in the decoder catches it). -/
def restXmlInitialBodyParse (etreeParse : String → Except String XElem)
    (body : String) : Except ResponseParserError XElem :=
  if body == "" then .ok (.elem "" none [])
  else parseXmlStringToDom etreeParse body

/-- An ElementTree parser that fails: it stands for the external
`xml.etree.ElementTree` parser applied to a document that is not
well-formed XML (the library rejects any such document with an
`XMLParseError`). -/
def failingEtreeParse : String → Except String XElem :=
  fun _ => .error "syntax error"

/-- A `json.loads` that fails: it stands for the external JSON parser
applied to a body that is not valid JSON. -/
def failingJsonLoads : String → Except Unit JValue :=
  fun _ => .error ()

/-! ## REST-XML response encoder (`moto/motocore/serialize.py`,
class `RestXMLSerializer`)

`_serialize` dispatches on the shape type name and mutates an ElementTree
node; we embed it functionally, each call returning the subtree it would
have attached to the parent node. -/

/-- Serialization traits of a structure member read by
`RestXMLSerializer._serialize_type_structure`. -/
structure SMemberInfo where
  xmlAttribute : Bool
  serName : Option String
deriving DecidableEq

/-- Shape fragment walked by the REST-XML serializer (scalars,
booleans and structures; `xmlns` is `serialization.get("xmlNamespace")`
restricted to a prefix-less namespace uri). -/
inductive SShape where
  | sstring
  | sboolean
  | sstructure (xmlns : Option String) (members : List (String × SMemberInfo × SShape))

/-- A backend value handed to the REST-XML serializer: `vnone` is Python
`None` (an absent member). -/
inductive SVal where
  | vnone
  | vstr (s : String)
  | vbool (b : Bool)
  | vstruct (fields : List (String × SVal))

/-- An output XML element built by the serializer: tag, attributes,
text and child elements. -/
structure XmlOut where
  tag : String
  attrib : List (String × String)
  text : Option String
  children : List XmlOut

mutual

/-- Embeds `RestXMLSerializer._serialize` (dispatch on the shape type to
`_serialize_type_structure`, `_serialize_type_boolean` or
`_default_serialize`), returning the element the Python code attaches to
the parent node. -/
def serializeRestXml : SShape → SVal → String → Except PyErr XmlOut
  | .sstring, v, name =>
    -- RestXMLSerializer._default_serialize: node.text = six.text_type(params)
    match v with
    | .vstr s => .ok ⟨name, [], some s, []⟩
    | _ => .error .typeError
  | .sboolean, v, name =>
    -- RestXMLSerializer._serialize_type_boolean: 'true' if truthy else 'false'
    match v with
    | .vbool b => .ok ⟨name, [], some (if b then "true" else "false"), []⟩
    | _ => .error .typeError
  | .sstructure xmlns members, v, name =>
    match v with
    | .vstruct fields =>
      let attrib0 := match xmlns with
        | some uri => [("xmlns", uri)]
        | none => []
      serializeStructFields members fields ⟨name, attrib0, none, []⟩
    | _ => .error .typeError

/-- Embeds the `for key, value in params.items()` loop of
`RestXMLSerializer._serialize_type_structure`.  Note the code executes
`return` (not `continue`) when it meets a member whose value is `None`,
so the structure node built so far is returned and every remaining member
is dropped. -/
def serializeStructFields (members : List (String × SMemberInfo × SShape)) :
    List (String × SVal) → XmlOut → Except PyErr XmlOut
  | [], node => .ok node
  | (key, v) :: rest, node =>
    match members.find? (fun m => m.fst == key) with
    | none => .error (.keyError key)  -- shape.members[key] raises KeyError
    | some (_, info, memberShape) =>
      let memberName := info.serName.getD key
      match v with
      | .vnone => .ok node  -- `if value is None: return` — abandons the remaining members
      | _ =>
        if info.xmlAttribute then
          -- xmlAttribute members carry string values on the wire; the
          -- attribute assignment uses the serialization name, whose
          -- absence raises KeyError in the source
          match info.serName, v with
          | some attrName, .vstr s =>
            serializeStructFields members rest
              { node with attrib := node.attrib ++ [(attrName, s)] }
          | none, _ => .error (.keyError "name")  -- serialization["name"] raises KeyError
          | _, _ => .error .typeError
        else
          match serializeRestXml memberShape v memberName with
          | .ok child =>
            serializeStructFields members rest
              { node with children := node.children ++ [child] }
          | .error e => .error e

end

/-! ## Dict-based response encoders (`moto/motocore/serialize.py`,
classes `DictSerializer`, `QuerySerializer`, `QueryJSONSerializer`,
`JSONSerializer`) -/

/-- Embeds Python `str` on a boolean: `str(True) = "True"`,
`str(False) = "False"`. -/
def pyStrBool (b : Bool) : String :=
  if b then "True" else "False"

/-- Embeds `DictSerializer._serialize_type_boolean`:
`serialized[key] = str(value).lower()` — the boolean is stored as the
string `"true"` or `"false"`. -/
def dictSerializeTypeBoolean (b : Bool) : JValue :=
  .jstr (pyLower (pyStrBool b))

/-- Embeds `QueryJSONSerializer._serialize_type_boolean`:
`serialized[key] = True if value else False` — a native boolean. -/
def queryJsonSerializeTypeBoolean (b : Bool) : JValue :=
  .jbool (if b then true else false)

/-- `JSONSerializer` (and its subclass `RestJSONSerializer`) does not
override `_serialize_type_boolean`, so Python method resolution finds
`DictSerializer._serialize_type_boolean`: the boolean is stored as the
string `"true"`/`"false"`, which `json.dumps` then renders as a quoted
JSON string. -/
def jsonSerializerTypeBoolean (b : Bool) : JValue :=
  dictSerializeTypeBoolean b

/-- Escapes the characters `json.dumps` must escape in the strings
appearing in this development (backslash and double quote; no control
characters occur in the claims). -/
def jsonEscape (s : String) : String :=
  String.mk (s.data.foldr (fun c acc =>
    if c == '\\' then '\\' :: '\\' :: acc
    else if c == '"' then '\\' :: '"' :: acc
    else c :: acc) [])

mutual

/-- Embeds `json.dumps` with default separators on the JSON values this
development builds. -/
def jsonDumps : JValue → String
  | .jnull => "null"
  | .jbool b => if b then "true" else "false"
  | .jnum n => toString n
  | .jstr s => "\"" ++ jsonEscape s ++ "\""
  | .jarr xs => "[" ++ String.intercalate ", " (jsonDumpsList xs) ++ "]"
  | .jobj fields => "\x7b" ++ String.intercalate ", " (jsonDumpsFields fields) ++ "\x7d"

/-- Renders the elements of a JSON array. -/
def jsonDumpsList : List JValue → List String
  | [] => []
  | v :: rest => jsonDumps v :: jsonDumpsList rest

/-- Renders the key-value pairs of a JSON object. -/
def jsonDumpsFields : List (String × JValue) → List String
  | [] => []
  | (k, v) :: rest =>
    ("\"" ++ jsonEscape k ++ "\": " ++ jsonDumps v) :: jsonDumpsFields rest

end

/-! ## Error-path serialization (`moto/motocore/serialize.py`) -/

/-- The data of an error shape consulted by
`DictSerializer._serialize_error`: `errorCode` is botocore's
`Shape.error_code` (the modeled error code of the shape),
`httpStatusCode` is `shape.metadata["error"]["httpStatusCode"]` and
`senderFault` is `shape.metadata["error"]["senderFault"]`. -/
structure ErrorShapeDesc where
  errorCode : String
  httpStatusCode : Option Nat
  senderFault : Bool
deriving DecidableEq

/-- Embeds `service_model.shape_for(name)` on the error shapes of the
service: `Except.error` is botocore's `NoShapeFoundError`. -/
def shapeFor (shapes : List (String × ErrorShapeDesc)) (name : String) :
    Except Unit ErrorShapeDesc :=
  match shapes.find? (fun p => p.fst == name) with
  | some p => .ok p.snd
  | none => .error ()

/-- A backend error value as seen by `DictSerializer._serialize_error`:
`code` is `getattr(error, "code", ...)`, `className` is
`error.__class__.__name__` and `message` is `str(error)`. -/
structure ErrorValue where
  code : Option String
  className : String
  message : String

/-- Embeds `DictSerializer._serialize_error`: resolve
`getattr(error, "code", error.__class__.__name__)` against the service
shapes; a known shape supplies the error code, the declared
`httpStatusCode` (defaulting to 400) and the sender-fault flag, while
`NoShapeFoundError` falls back to the class name, status 400 and a sender
fault.  Returns the status code and the error body
`{"Error": {"Code": .., "Message": .., ["Type": "Sender"]}, "RequestId": ..}`. -/
def dictSerializeError (shapes : List (String × ErrorShapeDesc))
    (requestId : String) (error : ErrorValue) : Nat × JValue :=
  let shapeName := error.code.getD error.className
  let resolved :=
    match shapeFor shapes shapeName with
    | .ok shape =>
      (shape.errorCode, shape.httpStatusCode.getD 400, shape.senderFault)
    | .error _ => (error.className, 400, true)
  let errorEntries := [("Code", JValue.jstr resolved.fst),
                       ("Message", JValue.jstr error.message)]
  let errorEntries :=
    if resolved.snd.snd then errorEntries ++ [("Type", JValue.jstr "Sender")]
    else errorEntries
  (resolved.snd.fst,
   JValue.jobj [("Error", JValue.jobj errorEntries),
                ("RequestId", JValue.jstr requestId)])

/-- The dispatch of `DictSerializer.serialize_to_response`: an error
result (`isinstance(result, Exception)`) takes the `_serialize_error`
branch, which sets the status code and error body, before and instead of
the normal output-shape serialization (embedded here for an operation
whose output shape is `None`, for which the success branch emits only the
`<Operation>Response/RequestId` envelope with the default status 200). -/
def dictSerializeToResponse (shapes : List (String × ErrorShapeDesc))
    (requestId : String) (opName : String)
    (result : Except ErrorValue (List (String × JValue))) : Nat × JValue :=
  match result with
  | .error e => dictSerializeError shapes requestId e
  | .ok _ =>
    (200, JValue.jobj [(opName ++ "Response",
      JValue.jobj [("RequestId", JValue.jstr requestId)])])

/-- Embeds the Python membership test `"error" in value` on the result
dict handed to `JSONSerializer.serialize_to_response`. -/
def pyDictContains (value : List (String × JValue)) (k : String) : Bool :=
  value.any (fun p => p.fst == k)

/-- Embeds `JSONSerializer.serialize_to_response` (the serializer of the
`json` and `rest-json` protocols), scoped to an operation whose output
shape is `None`.  Its error branch runs
`self._serialize_exception(value["error"], operation_model)`, but no class
in the serializer hierarchy defines `_serialize_exception`, so the
attribute access raises `AttributeError` before anything is serialized;
the success branch (with no output shape) returns `json.dumps` of the
empty dict. -/
def jsonSerializeToResponse (value : List (String × JValue)) : Except PyErr String :=
  if pyDictContains value "error" then
    .error (.attributeError "_serialize_exception")
  else
    .ok (jsonDumps (JValue.jobj []))

/-! ## Operation router (`moto/core/routing.py`,
classes `_RequiredArgsRule` and `_RequestMatchingRule`) -/

/-- The fields of `_HttpOperation` consumed when a `(path, method)` group
holds more than one operation: the required query args
(each with its list of required values), the required header names, and
the deprecated flag.  `opName` identifies the underlying operation (the
rule's `endpoint`). -/
structure HttpOperation where
  opName : String
  queryArgs : List (String × List String)
  headerArgs : List String
  deprecated : Bool

/-- Embeds `_RequiredArgsRule` after `__init__`: the endpoint, the
required args and the computed match score. -/
structure RequiredArgsRule where
  endpoint : String
  requiredQueryArgs : List (String × List String)
  requiredHeaderArgs : List String
  matchScore : Int

/-- Embeds `_RequiredArgsRule.__init__`: the score is
`10 + 10 * len(query args) + 10 * len(header args)`, lowered by 5 when the
operation is deprecated. -/
def RequiredArgsRule.ofOperation (op : HttpOperation) : RequiredArgsRule :=
  let score : Int := 10 + 10 * op.queryArgs.length + 10 * op.headerArgs.length
  let score := if op.deprecated then score - 5 else score
  { endpoint := op.opName
    requiredQueryArgs := op.queryArgs
    requiredHeaderArgs := op.headerArgs
    matchScore := score }

/-- Embeds `key in query_args` on the request's `MultiDict` of query
arguments (case-sensitive). -/
def qargsContains (queryArgs : List (String × String)) (k : String) : Bool :=
  queryArgs.any (fun p => p.fst == k)

/-- Embeds `query_args.getlist(key)`: every value carried under the key. -/
def qargsGetList (queryArgs : List (String × String)) (k : String) : List String :=
  (queryArgs.filter (fun p => p.fst == k)).map Prod.snd

/-- Embeds `key in headers` on werkzeug's `Headers`, whose membership test
is case-insensitive. -/
def headersContains (headers : List (String × String)) (k : String) : Bool :=
  headers.any (fun p => pyLower p.fst == pyLower k)

/-- Embeds `_RequiredArgsRule.matches`: every required query arg must be
present (and carry every required value), and every required header must
be present. -/
def RequiredArgsRule.matches (rule : RequiredArgsRule)
    (queryArgs : List (String × String)) (headers : List (String × String)) : Bool :=
  (rule.requiredQueryArgs.all (fun kv =>
    qargsContains queryArgs kv.fst &&
      kv.snd.all (fun v => (qargsGetList queryArgs kv.fst).contains v))) &&
  (rule.requiredHeaderArgs.all (fun k => headersContains headers k))

/-- Stable descending insertion by match score, reproducing Python
`sorted(rules, key=lambda rule: rule.match_score, reverse=True)`: a rule
is inserted before the first rule whose score is not greater, so rules
with equal scores keep their original relative order. -/
def insertByScoreDesc (r : RequiredArgsRule) :
    List RequiredArgsRule → List RequiredArgsRule
  | [] => [r]
  | x :: xs =>
    if r.matchScore ≥ x.matchScore then r :: x :: xs
    else x :: insertByScoreDesc r xs

/-- Stable descending sort by match score (see `insertByScoreDesc`). -/
def sortByScoreDesc : List RequiredArgsRule → List RequiredArgsRule
  | [] => []
  | x :: xs => insertByScoreDesc x (sortByScoreDesc xs)

/-- Embeds `_RequestMatchingRule.__init__`: build a `_RequiredArgsRule`
for every operation of the `(path, method)` group and sort them by
descending match score. -/
def buildRules (ops : List HttpOperation) : List RequiredArgsRule :=
  sortByScoreDesc (ops.map RequiredArgsRule.ofOperation)

/-- Embeds `_RequestMatchingRule.match_request`: the first rule (in
descending score order) whose required args match the request; `none`
embeds the `NotFound` raise. -/
def matchRequest (rules : List RequiredArgsRule)
    (queryArgs : List (String × String)) (headers : List (String × String)) :
    Option RequiredArgsRule :=
  rules.find? (fun rule => rule.matches queryArgs headers)

end Moto

/-! ## REST request decoder instance state (`moto/core/parse.py`,
classes `BaseRestParser` and `RequestParser`)

`BaseRestParser` stores the matched-URI context on the parser instance
(`self.uri_match`), and parser instances are long-lived.  This section
embeds the full `parse()` flow with that instance state made explicit, so
that per-invocation purity can be stated: `parse` maps an incoming state
and a request to a result and an updated state.

The external `re` module is abstracted as `Engine.rmatch` (pattern and
path to the named groups of the match, `Except.error` embedding an `re`
exception), and `urllib.parse.unquote` as `Engine.unquote`.  The modeled
member shapes are string-typed, and modeled input shapes elect a
string-typed payload member, so the body is consumed by the streaming
branch of `_parse_payload` (body parsing through a body codec is covered
by the JSON/XML sections above). -/

namespace Moto.Rest

/-- The external library functions the REST parser calls. -/
structure Engine where
  rmatch : String → String → Except Unit (Option (List (String × String)))
  unquote : String → String

/-- Serialization traits of an input-structure member read by
`BaseRestParser._parse_non_payload_attrs` (all modeled members are
string-typed). -/
structure MemberShape where
  location : Option String
  serName : Option String

/-- A modeled input shape: its members and the name of the string-typed
payload member (`shape.serialization["payload"]`). -/
structure InputShape where
  members : List (String × MemberShape)
  payload : String

/-- The slice of an operation model the REST parser reads. -/
structure Operation where
  opName : String
  httpMethod : String
  requestUri : String
  inputShape : Option InputShape

/-- The raw request (`RequestDict`). -/
structure RequestDict where
  urlPath : String
  method : String
  headers : List (String × String)
  body : String
  values : List (String × String)

/-- A decoded non-payload value: a scalar from a header, uri or query
location, or the sub-mapping collected for a `headers` location. -/
inductive RVal where
  | rstr (s : String)
  | rmap (entries : List (String × String))

/-- The mutable instance state of a `BaseRestParser`: `uriMatch` is
`self.uri_match`; the outer `none` models a fresh instance on which the
attribute has never been assigned. -/
structure ParserState where
  uriMatch : Option (Option (List (String × String)))

/-- Exceptions escaping `parse()`. -/
inductive PErr where
  | attributeError (name : String)
  | operationNotFound (name : String)
  | keyError (k : String)
  | reError

/-- Embeds `urlparse(uri).path`: the part of the uri before the fragment
and query markers. -/
def urlparsePath (uri : String) : String :=
  (splitOnChar ((splitOnChar uri '#').headD "") '?').headD ""

/-- Embeds the `_convert` helper of `BaseRestParser.uri_to_regexp`: a
template element of the form `{Name}` (tested by
`re.match("^{.*}$", elem)`, here embedded as brace-delimited with length
at least 2 — template elements contain no newline, so `.*` matches the
whole interior) becomes a named capture group, greedy when the element
contains `+`; a literal element is kept unchanged. -/
def convertElem (elem : String) (isLast : Bool) : String :=
  if !(pyStartsWith elem "\x7b" && pyEndsWith elem "\x7d" && elem.length ≥ 2) then elem
  else
    let greedy := pyContainsChar elem '+'
    let name := replaceChar (removeChar (removeChar (removeChar elem '\x7b') '\x7d') '+') '-' '_'
    if isLast then
      let capture := if greedy then "." else "[^/]"
      "(?P<" ++ name ++ ">" ++ capture ++ "+)"
    else
      "(?P<" ++ name ++ ">[^/]*)"

/-- Embeds `BaseRestParser.uri_to_regexp`: split the template on `/`,
convert each element, and anchor the result. -/
def uriToRegexp (uri : String) : String :=
  let elems := splitOnChar uri '/'
  let numElems := elems.length
  "^" ++ String.intercalate "/"
    (elems.enum.map (fun p => convertElem p.snd (p.fst == numElems - 1))) ++ "$"

/-- Insertion-ordered dict update (`d[k] = v`): replace the value of an
existing key in place, else append the pair. -/
def assocSet (l : List (String × String)) (k v : String) : List (String × String) :=
  match l with
  | [] => [(k, v)]
  | (k0, v0) :: rest =>
    if k0 == k then (k0, v) :: rest else (k0, v0) :: assocSet rest k v

/-- Embeds the `method_urls` table of `BaseRestParser._parse_action`,
restricted to the request's method: an insertion-ordered dict from uri
regexp to operation name (a later operation with the same method and
regexp overwrites the earlier name). -/
def methodUrls (ops : List Operation) (method : String) : List (String × String) :=
  ops.foldl (fun acc op =>
    if op.httpMethod == method then
      assocSet acc (uriToRegexp (urlparsePath op.requestUri)) op.opName
    else acc) []

/-- Embeds the matching loop of `BaseRestParser._parse_action`: match each
regexp against the url path, storing every match result in
`self.uri_match`, and return the first operation whose regexp matches;
`"UnknownOperation"` when none does.  An `re` exception propagates (there
is no handler in `_parse_action`). -/
def parseActionLoop (eng : Engine) (urlPath : String) :
    List (String × String) → ParserState → Except PErr String × ParserState
  | [], st => (.ok "UnknownOperation", st)
  | (regexp, name) :: rest, st =>
    match eng.rmatch regexp urlPath with
    | .error _ => (.error .reError, st)
    | .ok m =>
      let st := { st with uriMatch := some m }
      if m.isSome then (.ok name, st) else parseActionLoop eng urlPath rest st

/-- Embeds `BaseRestParser._parse_action`. -/
def parseAction (eng : Engine) (ops : List Operation) (req : RequestDict)
    (st : ParserState) : Except PErr String × ParserState :=
  parseActionLoop eng req.urlPath (methodUrls ops req.method) st

/-- Embeds `service_model.operation_model(action)`: botocore raises
`OperationNotFoundError` for an unknown operation name. -/
def operationModel (ops : List Operation) (name : String) : Except PErr Operation :=
  match ops.find? (fun op => op.opName == name) with
  | some op => .ok op
  | none => .error (.operationNotFound name)

/-- Embeds `BaseRestParser._parse_header_map`: collect every header whose
lowercased name starts with the (lowercased) prefix, stripping the prefix
from the key. -/
def parseHeaderMap (ms : MemberShape) (headers : List (String × String)) :
    List (String × String) :=
  let pfx := pyLower (ms.serName.getD "")
  (headers.filter (fun p => pyStartsWith (pyLower p.fst) pfx)).map
    (fun p => (p.fst.drop pfx.length, p.snd))

/-- Embeds dict lookup on the request's headers or query values
(`RequestDict` holds plain dicts, so the lookup is case-sensitive). -/
def lookupExact (l : List (String × String)) (k : String) : Option String :=
  match l.find? (fun p => p.fst == k) with
  | some p => some p.snd
  | none => none

/-- Embeds the member loop of `BaseRestParser._parse_non_payload_attrs`
for string-typed members.  Reading `self.uri_match` on a fresh instance on
which the attribute was never assigned raises `AttributeError`; a falsy
(None) `uri_match` skips uri members; a query-string member whose value is
missing executes `return`, abandoning the remaining members. -/
def nonPayloadLoop (eng : Engine) (st : ParserState) (req : RequestDict) :
    List (String × MemberShape) → List (String × RVal) →
    Except PErr (List (String × RVal))
  | [], acc => .ok acc
  | (name, ms) :: rest, acc =>
    match ms.location with
    | none => nonPayloadLoop eng st req rest acc
    | some loc =>
      if loc == "headers" then
        nonPayloadLoop eng st req rest (acc ++ [(name, .rmap (parseHeaderMap ms req.headers))])
      else if loc == "header" then
        let headerName := ms.serName.getD name
        match lookupExact req.headers headerName with
        | some v => nonPayloadLoop eng st req rest (acc ++ [(name, .rstr v)])
        | none => nonPayloadLoop eng st req rest acc
      else if loc == "uri" then
        let memberName := ms.serName.getD name
        match st.uriMatch with
        | none => .error (.attributeError "uri_match")
        | some none => nonPayloadLoop eng st req rest acc
        | some (some groups) =>
          match lookupExact groups memberName with
          | some v =>
            nonPayloadLoop eng st req rest (acc ++ [(name, .rstr (eng.unquote v))])
          | none => nonPayloadLoop eng st req rest acc  -- IndexError: pass
      else if loc == "querystring" then
        let memberName := ms.serName.getD name
        match lookupExact req.values memberName with
        | none => .ok acc  -- `if value is None: return`
        | some v => nonPayloadLoop eng st req rest (acc ++ [(name, .rstr v)])
      else
        nonPayloadLoop eng st req rest acc

/-- Embeds `BaseRestParser._parse_payload` for a shape electing a
string-typed payload member: the raw body becomes the member's value when
it is non-empty (`shape.members[payload]` raises `KeyError` when the
elected member does not exist). -/
def parsePayload (req : RequestDict) (shape : InputShape)
    (acc : List (String × RVal)) : Except PErr (List (String × RVal)) :=
  match shape.members.find? (fun p => p.fst == shape.payload) with
  | none => .error (.keyError shape.payload)
  | some _ =>
    if req.body == "" then .ok acc
    else .ok (acc ++ [(shape.payload, .rstr req.body)])

/-- Embeds `BaseRestParser._do_parse` and `_add_modeled_parse`: the
non-payload members first, then the payload. -/
def doParseRest (eng : Engine) (st : ParserState) (req : RequestDict)
    (shape : InputShape) : Except PErr (List (String × RVal)) :=
  match nonPayloadLoop eng st req shape.members [] with
  | .error e => .error e
  | .ok acc => parsePayload req shape acc

/-- Embeds `BaseRestParser._parse_params`: the `try` block recomputes the
uri match for the resolved operation and stores it in `self.uri_match`
(an exception in the block is swallowed, leaving the previous state);
then `RequestParser._parse_params` parses the input shape, or returns the
empty dict when the operation has none. -/
def parseParams (eng : Engine) (req : RequestDict) (op : Operation)
    (st : ParserState) : Except PErr (List (String × RVal)) × ParserState :=
  let st :=
    match eng.rmatch (uriToRegexp (urlparsePath op.requestUri)) req.urlPath with
    | .ok m => { st with uriMatch := some m }
    | .error _ => st  -- `except Exception: pass`
  match op.inputShape with
  | none => (.ok [], st)
  | some shape => (doParseRest eng st req shape, st)

/-- Embeds `RequestParser.parse` for a REST parser: resolve the action,
look up its operation model, and parse the parameters, threading the
instance state through. -/
def parse (eng : Engine) (ops : List Operation) (req : RequestDict)
    (st : ParserState) : Except PErr (String × List (String × RVal)) × ParserState :=
  match parseAction eng ops req st with
  | (.error e, st1) => (.error e, st1)
  | (.ok action, st1) =>
    match operationModel ops action with
    | .error e => (.error e, st1)
    | .ok op =>
      match parseParams eng req op st1 with
      | (.error e, st2) => (.error e, st2)
      | (.ok params, st2) => (.ok (action, params), st2)

end Moto.Rest

namespace Moto

/-! ## Theorems -/

/-- C10: in `_RequiredArgsRule.__init__` the deprecated-operation penalty
(5) is strictly smaller than the weight of one required marker (10), so a
rule built for an operation requiring strictly more header/query markers
always has a strictly greater match score than a rule requiring fewer,
whatever the deprecated flags of the two operations. -/
theorem c10_marker_count_dominates_deprecation (op1 op2 : HttpOperation)
    (h : op2.queryArgs.length + op2.headerArgs.length <
      op1.queryArgs.length + op1.headerArgs.length) :
    (RequiredArgsRule.ofOperation op2).matchScore <
      (RequiredArgsRule.ofOperation op1).matchScore := by
  simp only [RequiredArgsRule.ofOperation]
  cases op1.deprecated <;> cases op2.deprecated <;> simp <;> omega

/-- Witness for C10 at a concrete pair of operations: a deprecated
operation with one required header marker still outscores a
non-deprecated operation with none. -/
theorem c10_marker_count_dominates_deprecation_witness :
    (RequiredArgsRule.ofOperation ⟨"OpPlain", [], [], false⟩).matchScore <
      (RequiredArgsRule.ofOperation ⟨"OpWithHeader", [], ["X-Marker"], true⟩).matchScore :=
  c10_marker_count_dominates_deprecation ⟨"OpWithHeader", [], ["X-Marker"], true⟩
    ⟨"OpPlain", [], [], false⟩ (by decide)

/-- C7 counterexample: `QueryParser._handle_boolean` lowercases the wire
string before comparing with `"true"`, so the string `"True"` — which is
not the literal `"true"` — decodes to `True`, contradicting the claimed
case-sensitive comparison. -/
theorem c7_boolean_case_insensitive_counterexample :
    queryHandleBoolean (.pstr "True") = some true ∧ "True" ≠ "true" := by
  exact ⟨by decide, by decide⟩

/-- C7 (amended): the XML boolean handler decodes `true` exactly for the
literal text `"true"` (case-sensitively) and `false` for every other
string; the query and REST-JSON handlers pass a native boolean through
unchanged and decode a string to `true` exactly when its lowercasing is
`"true"` (so `"True"`/`"TRUE"` are accepted), `false` for every other
string; a value that is neither (the `UNDEFINED` sentinel, or a non-string
JSON value) yields `UNDEFINED`. -/
theorem c7_boolean_handlers (s : String) (b : Bool) :
    (xmlHandleBoolean s = true ↔ s = "true") ∧
    queryHandleBoolean (.pbool b) = some b ∧
    queryHandleBoolean (.pstr s) = some (pyLower s == "true") ∧
    queryHandleBoolean .pundef = none ∧
    restJsonHandleBoolean (.jbool b) = some b ∧
    restJsonHandleBoolean (.jstr s) = some (pyLower s == "true") ∧
    restJsonHandleBoolean .jnull = none := by
  refine ⟨?_, rfl, rfl, rfl, rfl, rfl, rfl⟩
  simp [xmlHandleBoolean]

/-- C8 counterexample: `JSONSerializer` (the `json` and `rest-json`
protocols) inherits `DictSerializer._serialize_type_boolean`, which stores
`str(value).lower()`, so a boolean member reaches `json.dumps` as the
string `"true"` and is rendered as a quoted JSON string — not as the
native JSON boolean token. -/
theorem c8_json_boolean_is_quoted_counterexample :
    jsonSerializerTypeBoolean true = .jstr "true" ∧
    jsonDumps (jsonSerializerTypeBoolean true) = "\"true\"" ∧
    jsonDumps (.jbool true) = "true" ∧
    jsonDumps (jsonSerializerTypeBoolean true) ≠ jsonDumps (.jbool true) := by
  refine ⟨?_, by decide, rfl, by decide⟩
  exact congrArg JValue.jstr (by decide)

/-- C8 (amended): the REST-XML serializer writes the literal element text
`"true"`/`"false"`; `DictSerializer` (hence the `query` protocol) stores
the string `"true"`/`"false"`; `QueryJSONSerializer` stores a native JSON
boolean; `JSONSerializer` and `RestJSONSerializer` inherit the
`DictSerializer` behavior and store the string form, which the JSON body
renders quoted. -/
theorem c8_boolean_wire_forms (b : Bool) :
    serializeRestXml .sboolean (.vbool b) "Flag" =
      .ok ⟨"Flag", [], some (if b then "true" else "false"), []⟩ ∧
    dictSerializeTypeBoolean b = .jstr (if b then "true" else "false") ∧
    queryJsonSerializeTypeBoolean b = .jbool b ∧
    jsonSerializerTypeBoolean b = .jstr (if b then "true" else "false") := by
  cases b
  · exact ⟨rfl, congrArg JValue.jstr (by decide), rfl, congrArg JValue.jstr (by decide)⟩
  · exact ⟨rfl, congrArg JValue.jstr (by decide), rfl, congrArg JValue.jstr (by decide)⟩


/-- C2 (code bug): `RestXMLSerializer._serialize_type_structure` executes
`return` — not `continue` — when it meets a member whose value is `None`,
although its own comment says "Don't serialize any param whose value is
None".  Serializing `{"A": None, "B": "x"}` against a structure with
string members `A` and `B` therefore emits an element with no children at
all: the present member `B` is suppressed by the absent member `A`.  With
the members in the opposite order `B` survives, showing the drop depends
only on the position of the `None` member. -/
theorem c2_restxml_none_member_suppresses_rest :
    serializeRestXml
      (.sstructure none [("A", ⟨false, none⟩, .sstring), ("B", ⟨false, none⟩, .sstring)])
      (.vstruct [("A", .vnone), ("B", .vstr "x")]) "Root" =
      .ok ⟨"Root", [], none, []⟩ ∧
    serializeRestXml
      (.sstructure none [("A", ⟨false, none⟩, .sstring), ("B", ⟨false, none⟩, .sstring)])
      (.vstruct [("B", .vstr "x"), ("A", .vnone)]) "Root" =
      .ok ⟨"Root", [], none, [⟨"B", [], some "x", []⟩]⟩ :=
  ⟨rfl, rfl⟩

/-- C5 (code bug): the error branch of
`JSONSerializer.serialize_to_response` (protocols `json` and `rest-json`)
calls `self._serialize_exception`, an attribute no class in the serializer
hierarchy defines, so serializing an error value raises `AttributeError`
instead of producing the error envelope with a status code. -/
theorem c5_json_serializer_error_branch_raises :
    jsonSerializeToResponse [("error", .jstr "DBInstanceAlreadyExists")] =
      .error (.attributeError "_serialize_exception") :=
  rfl

/-- Supporting result (not a claim): `DictSerializer` — used by the
`query` and `query-json` protocols — does implement the error contract:
the error branch runs instead of the success branch, the status code is
the error shape's declared `httpStatusCode` (400 when the shape declares
none or the code resolves to no shape), and the body carries the error
code and message inside the `Error` envelope. -/
theorem dict_serializer_error_status_code (shapes : List (String × ErrorShapeDesc))
    (rid opName : String) (e : ErrorValue) :
    (dictSerializeToResponse shapes rid opName (.error e) =
      dictSerializeError shapes rid e) ∧
    (∀ sh, shapeFor shapes (e.code.getD e.className) = .ok sh →
      dictSerializeError shapes rid e =
        (sh.httpStatusCode.getD 400,
         JValue.jobj [("Error", JValue.jobj
            ([("Code", JValue.jstr sh.errorCode), ("Message", JValue.jstr e.message)] ++
             (if sh.senderFault then [("Type", JValue.jstr "Sender")] else []))),
          ("RequestId", JValue.jstr rid)])) ∧
    (shapeFor shapes (e.code.getD e.className) = .error () →
      dictSerializeError shapes rid e =
        (400, JValue.jobj [("Error", JValue.jobj
            [("Code", JValue.jstr e.className), ("Message", JValue.jstr e.message),
             ("Type", JValue.jstr "Sender")]),
          ("RequestId", JValue.jstr rid)])) := by
  refine ⟨rfl, ?_, ?_⟩
  · intro sh hsh
    simp only [dictSerializeError, hsh]
    cases hsf : sh.senderFault <;> simp [hsf]
  · intro hsh
    simp [dictSerializeError, hsh]

/-- C3 counterexample: `RestXMLParser` feeds a non-empty body to
`BaseXMLParser._parse_xml_string_to_dom`, which raises
`ResponseParserError` when the ElementTree parser rejects the document —
the decoder does not return a best-effort substitute for malformed XML.
(`failingEtreeParse` stands for the external ElementTree parser applied to
a document that is not well-formed.) -/
theorem c3_malformed_xml_raises_counterexample :
    restXmlInitialBodyParse failingEtreeParse "<foo" =
      .error ⟨"Unable to parse response (syntax error), invalid XML received. Further retries may succeed:\n<foo"⟩ :=
  rfl

/-- C3 (amended): a JSON-based decoder substitutes
`{"message": <raw body text>}` for a non-empty body that `json.loads`
rejects, so dispatch can proceed; an XML-based decoder instead raises
`ResponseParserError` past the decoder boundary when the ElementTree
parser rejects the body. -/
theorem c3_malformed_body_behavior :
    (∀ (jsonLoads : String → Except Unit JValue) (body : String),
      body ≠ "" → jsonLoads body = .error () →
      parseBodyAsJson jsonLoads body = .jobj [("message", .jstr body)]) ∧
    (∀ (etreeParse : String → Except String XElem) (s e : String),
      etreeParse s = .error e →
      parseXmlStringToDom etreeParse s =
        .error ⟨"Unable to parse response (" ++ e ++
          "), invalid XML received. Further retries may succeed:\n" ++ s⟩) := by
  constructor
  · intro jsonLoads body hb he
    simp only [parseBodyAsJson, he]
    rw [if_neg (by simpa using hb)]
  · intro etreeParse s e he
    simp only [parseXmlStringToDom, he]

/-- Witness for C3 at concrete malformed bodies: the JSON substitute and
the XML raise, both obtained from `c3_malformed_body_behavior`. -/
theorem c3_malformed_body_behavior_witness :
    parseBodyAsJson failingJsonLoads "\x7bnot json" =
      .jobj [("message", .jstr "\x7bnot json")] ∧
    parseXmlStringToDom failingEtreeParse "<foo" =
      .error ⟨"Unable to parse response (syntax error), invalid XML received. Further retries may succeed:\n<foo"⟩ :=
  ⟨c3_malformed_body_behavior.1 failingJsonLoads "\x7bnot json" (by decide) rfl,
   c3_malformed_body_behavior.2 failingEtreeParse "<foo" "syntax error" rfl⟩

/-- C6 counterexample: decoding the JSON document `{"A": null}` against a
structure with a member `A` drops the member entirely — the key is present
on the wire with value `null` (second conjunct) but is absent from the
decoded parameter tree, because `value.get` conflates a `null` value with
a missing key and `_handle_structure` keeps only members whose lookup is
not `None`. -/
theorem c6_present_null_dropped_counterexample :
    handleJsonStructure ⟨false, [("A", none)]⟩ (.jobj [("A", .jnull)]) =
      .ok (.jmap []) ∧
    jfind [("A", JValue.jnull)] "A" = some .jnull :=
  ⟨rfl, rfl⟩

/-- C6 (amended): for a structure with one member `A`: a document whose
key `A` is absent decodes with `A` omitted (never inserted as null); a
document whose key `A` is present with JSON `null` is decoded exactly the
same way — the member is dropped, not preserved as null; a member present
with a non-null value is kept; and only a structure whose own wire value
is `null` has the null preserved (the structure decodes to `None`, not to
an empty dict). -/
theorem c6_absent_vs_null (fields : List (String × JValue)) (v : JValue) :
    (jfind fields "A" = none →
      handleJsonStructure ⟨false, [("A", none)]⟩ (.jobj fields) = .ok (.jmap [])) ∧
    (jfind fields "A" = some .jnull →
      handleJsonStructure ⟨false, [("A", none)]⟩ (.jobj fields) = .ok (.jmap [])) ∧
    (jfind fields "A" = some v → v ≠ .jnull →
      handleJsonStructure ⟨false, [("A", none)]⟩ (.jobj fields) = .ok (.jmap [("A", v)])) ∧
    handleJsonStructure ⟨false, [("A", none)]⟩ .jnull = .ok .jnone := by
  refine ⟨?_, ?_, ?_, rfl⟩ <;>
    · intro h
      first
      | (intro hv
         simp only [handleJsonStructure, collectMembers, pyJsonGet, jfind,
           Option.getD] at *
         cases hfind : fields.find? (fun p => p.fst == "A") with
         | none => rw [hfind] at h; exact absurd h (by simp)
         | some p =>
           rw [hfind] at h
           obtain ⟨k0, v0⟩ := p
           cases v0 <;> simp_all)
      | (simp only [handleJsonStructure, collectMembers, pyJsonGet, jfind,
           Option.getD] at *
         cases hfind : fields.find? (fun p => p.fst == "A") with
         | none => simp
         | some p =>
           rw [hfind] at h
           obtain ⟨k0, v0⟩ := p
           cases v0 <;> simp_all)

/-- Witness for C6: the three hypothesized cases at concrete documents —
key absent, key present with `null`, key present with a string. -/
theorem c6_absent_vs_null_witness :
    handleJsonStructure ⟨false, [("A", none)]⟩ (.jobj [("B", .jstr "x")]) =
      .ok (.jmap []) ∧
    handleJsonStructure ⟨false, [("A", none)]⟩ (.jobj [("A", .jnull)]) =
      .ok (.jmap []) ∧
    handleJsonStructure ⟨false, [("A", none)]⟩ (.jobj [("A", .jstr "x")]) =
      .ok (.jmap [("A", .jstr "x")]) :=
  ⟨(c6_absent_vs_null [("B", .jstr "x")] (.jstr "x")).1 rfl,
   (c6_absent_vs_null [("A", .jnull)] (.jstr "x")).2.1 rfl,
   (c6_absent_vs_null [("A", .jstr "x")] (.jstr "x")).2.2.1 rfl (by intro h; cases h)⟩

/-- C4: two operations share a `(method, path)` group; `OpWithHeader`
requires the header marker `x` and `OpPlain` requires none.  Whatever the
deprecated flags and whatever order the group lists the operations in,
`_RequestMatchingRule` sorts the built rules by descending match score, so
a request carrying the header resolves to `OpWithHeader` and a request
without it resolves to `OpPlain`. -/
theorem c4_header_marker_disambiguation (x : String) (dA dB : Bool)
    (qargs headers : List (String × String)) :
    (headersContains headers x = true →
      (matchRequest (buildRules
          [⟨"OpWithHeader", [], [x], dA⟩, ⟨"OpPlain", [], [], dB⟩]) qargs headers).map
        RequiredArgsRule.endpoint = some "OpWithHeader" ∧
      (matchRequest (buildRules
          [⟨"OpPlain", [], [], dB⟩, ⟨"OpWithHeader", [], [x], dA⟩]) qargs headers).map
        RequiredArgsRule.endpoint = some "OpWithHeader") ∧
    (headersContains headers x = false →
      (matchRequest (buildRules
          [⟨"OpWithHeader", [], [x], dA⟩, ⟨"OpPlain", [], [], dB⟩]) qargs headers).map
        RequiredArgsRule.endpoint = some "OpPlain" ∧
      (matchRequest (buildRules
          [⟨"OpPlain", [], [], dB⟩, ⟨"OpWithHeader", [], [x], dA⟩]) qargs headers).map
        RequiredArgsRule.endpoint = some "OpPlain") := by
  cases dA <;> cases dB <;>
    constructor <;>
      intro h <;>
        constructor <;>
          simp [buildRules, sortByScoreDesc, insertByScoreDesc,
            RequiredArgsRule.ofOperation, matchRequest, RequiredArgsRule.matches,
            List.find?, h]

/-- Witness for C4 at a concrete request pair: with the header
`X-Amz-Copy-Source` present the marker-requiring operation wins; without
it the marker-free operation wins. -/
theorem c4_header_marker_disambiguation_witness :
    (matchRequest (buildRules
        [⟨"OpWithHeader", [], ["X-Amz-Copy-Source"], false⟩, ⟨"OpPlain", [], [], false⟩])
      [] [("X-Amz-Copy-Source", "bucket/key")]).map
      RequiredArgsRule.endpoint = some "OpWithHeader" ∧
    (matchRequest (buildRules
        [⟨"OpWithHeader", [], ["X-Amz-Copy-Source"], false⟩, ⟨"OpPlain", [], [], false⟩])
      [] []).map RequiredArgsRule.endpoint = some "OpPlain" :=
  ⟨((c4_header_marker_disambiguation "X-Amz-Copy-Source" false false []
      [("X-Amz-Copy-Source", "bucket/key")]).1 (by decide)).1,
   ((c4_header_marker_disambiguation "X-Amz-Copy-Source" false false [] []).2
      (by decide)).1⟩

/-- Helper for C1: the index probe of `QueryParser._handle_list` collects
exactly the values present at consecutive indices.  If the keys
`pfx.i, pfx.(i+1), ..., pfx.(i+n-1)` are present with values given by `v`
and the key `pfx.(i+n)` is absent, then with more than `n` units of fuel
the probe starting at index `i` returns those `n` values in index
order. -/
theorem probeList_consecutive (params : List (String × String)) (pfx : String)
    (v : Nat → String) :
    ∀ (n i fuel : Nat), n < fuel →
    (∀ k, k < n → qget params (pfx ++ "." ++ Nat.repr (i + k)) = some (v (i + k))) →
    qget params (pfx ++ "." ++ Nat.repr (i + n)) = none →
    probeList params fuel (.qstring none none) pfx i =
      (List.range n).map (fun k => QVal.vstr (v (i + k))) := by
  intro n
  induction n with
  | zero =>
    intro i fuel hfuel _ hstop
    match fuel, hfuel with
    | fuel + 1, _ =>
      simp only [probeList, parseShape, defaultHandle]
      rw [show i + 0 = i from rfl] at hstop
      rw [hstop]
      simp
  | succ n ih =>
    intro i fuel hfuel hidx hstop
    match fuel, hfuel with
    | fuel + 1, hfuel =>
      have h0 : qget params (pfx ++ "." ++ Nat.repr i) = some (v i) := by
        have h := hidx 0 (Nat.succ_pos n)
        simpa using h
      simp only [probeList, parseShape, defaultHandle, h0]
      rw [ih (i + 1) fuel (by omega)
        (fun k hk => by
          have h := hidx (k + 1) (by omega)
          rw [show i + 1 + k = i + (k + 1) from by omega]
          exact h)
        (by
          rw [show i + 1 + n = i + (n + 1) from by omega]
          exact hstop)]
      rw [List.range_succ_eq_map]
      simp only [List.map_cons, List.map_map, Function.comp, Nat.add_zero]
      refine congrArg₂ List.cons rfl ?_
      refine List.map_congr_left (fun k _ => ?_)
      have h1 : i + 1 + k = i + (k + 1) := by omega
      rw [h1]
      rfl

/-- The input shape of the C1 scenario: one member `Foo` that is a
flattened list of strings with no serialization-name overrides (the spec's
`Foo.1=a&Foo.2=b` shape). -/
def fooListShape : QShape :=
  .qstructure none [("Foo", .qlist none true (.qstring none none))]

/-- C1: decoding the list member `Foo` of `fooListShape` from the query
multimap satisfies the three cases of the claim: (1) when the indexed
keys `Foo.1 .. Foo.n` are present (and `Foo.(n+1)` is not, and no
bare-prefix empty-string sentinel is present) the decoded list holds
exactly those `n` values in index order; (2) when the bare-prefix key
`Foo` is present with the empty string (whether or not indexed keys are
present) the decoded list is empty — the sentinel is authoritative;
(3) when neither the sentinel nor the key `Foo.1` is present the member
is absent from the decoded parameter tree. -/
theorem c1_query_list_decode (params : List (String × String)) (v : Nat → String)
    (n fuel : Nat) :
    (n < fuel → 0 < n →
      (∀ k, k < n → qget params ("Foo." ++ Nat.repr (1 + k)) = some (v (1 + k))) →
      qget params ("Foo." ++ Nat.repr (1 + n)) = none →
      qget params "Foo" ≠ some "" →
      doParse params fuel fooListShape =
        .vmap [("Foo", .vlist ((List.range n).map (fun k => .vstr (v (1 + k)))))]) ∧
    (qget params "Foo" = some "" →
      doParse params fuel fooListShape = .vmap [("Foo", .vlist [])]) ∧
    (qget params "Foo" ≠ some "" → qget params ("Foo." ++ Nat.repr 1) = none →
      doParse params fuel fooListShape = .vmap []) := by
  have hkey : ∀ k : Nat, ("Foo" ++ "." ++ Nat.repr k) = ("Foo." ++ Nat.repr k) :=
    fun k => rfl
  refine ⟨?_, ?_, ?_⟩
  · intro hfuel hpos hidx hstop hbare
    have hprobe := probeList_consecutive params "Foo" v n 1 fuel hfuel
      (fun k hk => by rw [hkey]; exact hidx k hk)
      (by rw [hkey]; exact hstop)
    obtain ⟨m, rfl⟩ : ∃ m, n = m + 1 := ⟨n - 1, by omega⟩
    simp only [doParse, fooListShape, parseShape, parseMembers, gonnaRecurse,
      QShape.serName]
    simp [hbare, hprobe, List.range_succ_eq_map]
  · intro hbare
    simp only [doParse, fooListShape, parseShape, parseMembers, gonnaRecurse,
      QShape.serName]
    simp [hbare]
  · intro hbare hstop
    have hprobe : probeList params fuel (.qstring none none) "Foo" 1 = [] := by
      cases fuel with
      | zero => simp only [probeList]
      | succ f =>
        have h := probeList_consecutive params "Foo" (fun _ => "") 0 1 (f + 1)
          (Nat.succ_pos f) (fun k hk => absurd hk (Nat.not_lt_zero k))
          (by rw [hkey]; simpa using hstop)
        simpa using h
    simp only [doParse, fooListShape, parseShape, parseMembers, gonnaRecurse,
      QShape.serName]
    simp [hbare, hprobe]

/-- Witness for C1 at concrete multimaps: `Foo.1=a&Foo.2=b` decodes to
`["a", "b"]`; the bare-prefix empty string decodes to `[]`; no `Foo` key
at all leaves the member (and hence the whole structure) absent. -/
theorem c1_query_list_decode_witness :
    doParse [("Foo.1", "a"), ("Foo.2", "b")] 3 fooListShape =
      .vmap [("Foo", .vlist [.vstr "a", .vstr "b"])] ∧
    doParse [("Foo", "")] 3 fooListShape = .vmap [("Foo", .vlist [])] ∧
    doParse [("Action", "Op")] 3 fooListShape = .vmap [] := by
  refine ⟨?_, ?_, ?_⟩
  · have h := (c1_query_list_decode [("Foo.1", "a"), ("Foo.2", "b")]
      (fun k => if k == 1 then "a" else "b") 2 3).1 (by decide) (by decide)
      (by decide) (by decide) (by decide)
    exact h.trans (by rfl)
  · exact (c1_query_list_decode [("Foo", "")] (fun _ => "") 0 3).2.1 rfl
  · exact (c1_query_list_decode [("Action", "Op")] (fun _ => "") 0 3).2.2
      (by decide) (by decide)

end Moto

namespace Moto.Rest

/-- Helper for C9: the action-resolution loop writes `self.uri_match` but
never reads it, so its resolved action does not depend on the incoming
instance state, and the state it leaves behind is either independent of
the incoming state (as soon as one regexp was tried) or the incoming
state untouched. -/
theorem parseActionLoop_state (eng : Engine) (path : String) :
    ∀ (l : List (String × String)) (st st' : ParserState),
      (parseActionLoop eng path l st).fst = (parseActionLoop eng path l st').fst ∧
      ((parseActionLoop eng path l st).snd = (parseActionLoop eng path l st').snd ∨
        ((parseActionLoop eng path l st).snd = st ∧
          (parseActionLoop eng path l st').snd = st')) := by
  intro l
  induction l with
  | nil => exact fun st st' => ⟨rfl, .inr ⟨rfl, rfl⟩⟩
  | cons hd tl ih =>
    intro st st'
    obtain ⟨regexp, name⟩ := hd
    simp only [parseActionLoop]
    cases h : eng.rmatch regexp path with
    | error e => exact ⟨rfl, .inr ⟨rfl, rfl⟩⟩
    | ok m => exact ⟨rfl, .inl rfl⟩

/-- Helper for C9: when the regex engine does not throw,
`BaseRestParser._parse_params` overwrites `self.uri_match` from the
current request before anything reads it, so its parsed output does not
depend on the incoming instance state. -/
theorem parseParams_state_free (eng : Engine) (req : RequestDict) (op : Operation)
    (heng : ∀ p q, eng.rmatch p q ≠ Except.error ()) (st st' : ParserState) :
    (parseParams eng req op st).fst = (parseParams eng req op st').fst := by
  simp only [parseParams]
  cases h : eng.rmatch (uriToRegexp (urlparsePath op.requestUri)) req.urlPath with
  | error e => exact absurd h (by cases e; exact heng _ _)
  | ok m => rfl

/-- C9: decoding is per-invocation pure with respect to the parser
instance.  For any two instance states `s1`, `s2` — in particular the
state left behind by decoding any earlier request, and the state of a
fresh instance — decoding the same request on either state yields exactly
the same result, provided the regex engine does not throw (the uri-match
context written by one decode is always overwritten before the next
decode reads it). -/
theorem c9_decode_state_independent (eng : Engine) (ops : List Operation)
    (req : RequestDict) (s1 s2 : ParserState)
    (heng : ∀ p q, eng.rmatch p q ≠ Except.error ()) :
    (parse eng ops req s1).fst = (parse eng ops req s2).fst := by
  simp only [parse, parseAction]
  obtain ⟨hfst, hsnd⟩ :=
    parseActionLoop_state eng req.urlPath (methodUrls ops req.method) s1 s2
  rcases h1 : parseActionLoop eng req.urlPath (methodUrls ops req.method) s1
    with ⟨a1, t1⟩
  rcases h2 : parseActionLoop eng req.urlPath (methodUrls ops req.method) s2
    with ⟨a2, t2⟩
  rw [h1, h2] at hfst hsnd
  simp only at hfst hsnd
  subst hfst
  cases a1 with
  | error e => rfl
  | ok action =>
    simp only
    cases hop : operationModel ops action with
    | error e => rfl
    | ok op =>
      have hpp := parseParams_state_free eng req op heng t1 t2
      rcases hp1 : parseParams eng req op t1 with ⟨p1, u1⟩
      rcases hp2 : parseParams eng req op t2 with ⟨p2, u2⟩
      rw [hp1, hp2] at hpp
      simp only at hpp
      subst hpp
      simp only [hp1, hp2]
      cases p1 with
      | error e => rfl
      | ok params => rfl

/-- Witness for C9 at a concrete engine, service model and request: the
result of decoding on an instance that still carries the uri-match of a
previous request equals the result of decoding on a fresh instance. -/
theorem c9_decode_state_independent_witness :
    (parse ⟨fun _ _ => .ok (some [("WidgetId", "abc")]), id⟩
      [⟨"GetWidget", "GET", "/widgets/\x7bWidgetId\x7d",
        some ⟨[("WidgetId", ⟨some "uri", none⟩), ("Data", ⟨none, none⟩)], "Data"⟩⟩]
      ⟨"/widgets/abc", "GET", [], "hello", []⟩
      ⟨some (some [("WidgetId", "stale-from-previous-request")])⟩).fst =
    (parse ⟨fun _ _ => .ok (some [("WidgetId", "abc")]), id⟩
      [⟨"GetWidget", "GET", "/widgets/\x7bWidgetId\x7d",
        some ⟨[("WidgetId", ⟨some "uri", none⟩), ("Data", ⟨none, none⟩)], "Data"⟩⟩]
      ⟨"/widgets/abc", "GET", [], "hello", []⟩
      ⟨none⟩).fst :=
  c9_decode_state_independent
    ⟨fun _ _ => .ok (some [("WidgetId", "abc")]), id⟩
    [⟨"GetWidget", "GET", "/widgets/\x7bWidgetId\x7d",
      some ⟨[("WidgetId", ⟨some "uri", none⟩), ("Data", ⟨none, none⟩)], "Data"⟩⟩]
    ⟨"/widgets/abc", "GET", [], "hello", []⟩
    ⟨some (some [("WidgetId", "stale-from-previous-request")])⟩
    ⟨none⟩
    (fun _ _ h => nomatch h)

end Moto.Rest
